import Mathlib

set_option autoImplicit false

/-!
Verification of the mycicd deployment tool against its specification.

The JavaScript sources are shallowly embedded: JS strings become `String`
or `List Char`, JS arrays become `List`, the in-memory `activeJobs` map
becomes an association list, database tables become lists of row
structures, and the promise-based stage calls become explicit outcome
values threaded through a pure model of `runDeployment`.
-/

namespace MyCicd

/-! ## Durable log blob (src/services/database.js, updateJob / getJob)

`updateJob` stores `logs.join('\n')`; `getJob` reconstructs with
`job.logs ? job.logs.split('\n').filter(line => line.trim() !== '') : []`.
Lines are modelled as `List Char`. -/

/-- The whitespace test behind JavaScript `String.prototype.trim` restricted
to the characters that can occur in this system's log lines. -/
def isJsSpace (c : Char) : Bool := c = ' ' || c = '\t' || c = '\n' || c = '\r'

/-- Model of JS `line.trim()`: drop whitespace from both ends. -/
def trimJs (l : List Char) : List Char :=
  ((l.dropWhile isJsSpace).reverse.dropWhile isJsSpace).reverse

/-- Model of JS `blob.split('\n')`: splitting the empty string yields `[[]]`,
matching `''.split('\n') === ['']`. -/
def splitNl : List Char → List (List Char)
  | [] => [[]]
  | c :: rest =>
    if c = '\n' then [] :: splitNl rest
    else
      match splitNl rest with
      | [] => [[c]]
      | l :: ls => (c :: l) :: ls

/-- Model of JS `logs.join('\n')`. -/
def joinNl : List (List Char) → List Char
  | [] => []
  | [l] => l
  | l :: l2 :: ls => l ++ '\n' :: joinNl (l2 :: ls)

/-- `updateJob` (database.js line 201): the stored blob for a logs array. -/
def updateJobLogsBlob (logs : List (List Char)) : List Char := joinNl logs

/-- `getJob` (database.js line 217): reconstruct the logs array from the
stored blob; an empty blob is falsy in JS and yields `[]`. -/
def getJobLogs (blob : List Char) : List (List Char) :=
  if blob = [] then []
  else (splitNl blob).filter (fun l => decide (trimJs l ≠ []))

theorem splitNl_no_newline (l : List Char) (h : '\n' ∉ l) : splitNl l = [l] := by
  induction l with
  | nil => rfl
  | cons c rest ih =>
    have hc : c ≠ '\n' := fun hc => h (hc ▸ List.mem_cons_self c rest)
    have hrest : '\n' ∉ rest := fun hr => h (List.mem_cons_of_mem c hr)
    simp [splitNl, hc, ih hrest]

theorem splitNl_append (l rest : List Char) (h : '\n' ∉ l) :
    splitNl (l ++ '\n' :: rest) = l :: splitNl rest := by
  induction l with
  | nil => simp [splitNl]
  | cons c l2 ih =>
    have hc : c ≠ '\n' := fun hc => h (hc ▸ List.mem_cons_self c l2)
    have hl2 : '\n' ∉ l2 := fun hr => h (List.mem_cons_of_mem c hr)
    simp only [List.cons_append, splitNl, List.append_eq, if_neg hc, ih hl2]

theorem splitNl_joinNl (logs : List (List Char)) (hnl : ∀ l ∈ logs, '\n' ∉ l)
    (hne : logs ≠ []) : splitNl (joinNl logs) = logs := by
  induction logs with
  | nil => exact absurd rfl hne
  | cons l ls ih =>
    cases ls with
    | nil =>
      simp only [joinNl]
      exact splitNl_no_newline l (hnl l (List.mem_cons_self l []))
    | cons l2 ls2 =>
      have h1 : '\n' ∉ l := hnl l (List.mem_cons_self l _)
      have h2 : ∀ x ∈ l2 :: ls2, '\n' ∉ x := fun x hx => hnl x (List.mem_cons_of_mem l hx)
      simp only [joinNl, splitNl_append l _ h1, ih h2 (by simp)]

theorem trimJs_nil : trimJs [] = [] := rfl

/-- A line whose trim is nonempty is itself nonempty. -/
theorem ne_nil_of_trimJs_ne_nil (l : List Char) (h : trimJs l ≠ []) : l ≠ [] := by
  intro hl
  exact h (hl ▸ trimJs_nil)

theorem joinNl_ne_nil (l : List Char) (ls : List (List Char)) (h : l ≠ []) :
    joinNl (l :: ls) ≠ [] := by
  cases ls with
  | nil => simpa [joinNl] using h
  | cons l2 ls2 =>
    cases l with
    | nil => simp [joinNl]
    | cons c cs => simp [joinNl]

/-- C5. Durable log round-trip: joining newline-free, non-blank log lines
into the stored blob and reconstructing them returns the original list. -/
theorem durable_log_roundtrip (logs : List (List Char))
    (hnl : ∀ l ∈ logs, '\n' ∉ l)
    (hblank : ∀ l ∈ logs, trimJs l ≠ []) :
    getJobLogs (updateJobLogsBlob logs) = logs := by
  cases logs with
  | nil => rfl
  | cons l ls =>
    have hlne : l ≠ [] :=
      ne_nil_of_trimJs_ne_nil l (hblank l (List.mem_cons_self l ls))
    have hb : joinNl (l :: ls) ≠ [] := joinNl_ne_nil l ls hlne
    unfold getJobLogs updateJobLogsBlob
    rw [if_neg hb, splitNl_joinNl (l :: ls) hnl (by simp)]
    rw [List.filter_eq_self.mpr]
    intro a ha
    exact decide_eq_true (hblank a ha)

/-- C5 witness at a concrete log list. -/
theorem durable_log_roundtrip_witness :
    getJobLogs (updateJobLogsBlob [['a'], ['b', 'c']]) = [['a'], ['b', 'c']] :=
  durable_log_roundtrip [['a'], ['b', 'c']] (by decide) (by decide)

/-! ## Credential Vault (C4)

Modelled from the spec: the credential-vault module (`services/crypto`,
required by `server.js` as `cryptoService`) is not among the provided
sources; only its callers are.  Following spec §4.1, encryption derives a
key from (passphrase, salt) via a slow KDF and applies an authenticated
cipher (AES-256-GCM) under a fresh salt and nonce, and decryption fails
with `AuthenticationFailure` whenever the integrity check fails.  The
model idealizes the primitives: the KDF is the injective pairing of
passphrase and salt, the keystream is a concrete pad combined by XOR, and
the authentication tag of a perfectly collision-free MAC is represented
by the authenticated data itself. -/

inductive CryptoError where
  | authenticationFailure
  | malformedEnvelope
deriving DecidableEq

/-- A derived key: idealized injective KDF output from (passphrase, salt). -/
abbrev VaultKey := String × Nat

/-- Modelled from the spec: PBKDF2-style key derivation, idealized as the
injective pairing of passphrase and salt. -/
def deriveKey (passphrase : String) (salt : Nat) : VaultKey := (passphrase, salt)

def strHash (s : String) : Nat := s.data.foldl (fun a c => a * 31 + c.toNat) 7

/-- Keystream byte for position `i` under a key and nonce. -/
def padOf (k : VaultKey) (nonce i : Nat) : Nat :=
  strHash k.1 * 67 + k.2 * 131 + nonce * 7 + i * 13

/-- XOR a byte list against the keystream starting at position `i`. -/
def xorPad (k : VaultKey) (nonce : Nat) : Nat → List Nat → List Nat
  | _, [] => []
  | i, b :: rest => (b ^^^ padOf k nonce i) :: xorPad k nonce (i + 1) rest

/-- Idealized MAC value over (key, nonce, ciphertext). -/
abbrev MacTag := VaultKey × Nat × List Nat

def macTag (k : VaultKey) (nonce : Nat) (ct : List Nat) : MacTag := (k, nonce, ct)

/-- The four-field envelope of spec §4.1: salt, nonce, tag, ciphertext. -/
structure Envelope where
  salt : Nat
  nonce : Nat
  tag : MacTag
  ct : List Nat
deriving DecidableEq

/-- Modelled from the spec: `encrypt(plaintext, passphrase)` with the fresh
random salt and nonce made explicit arguments. -/
def encrypt (plaintext : List Nat) (passphrase : String) (salt nonce : Nat) : Envelope :=
  let k := deriveKey passphrase salt
  let ct := xorPad k nonce 0 plaintext
  { salt := salt, nonce := nonce, tag := macTag k nonce ct, ct := ct }

/-- Modelled from the spec: `decrypt(envelope, passphrase)` checks the
authentication tag under the re-derived key and fails with
`AuthenticationFailure` on mismatch, never returning a wrong plaintext. -/
def decrypt (e : Envelope) (passphrase : String) : Except CryptoError (List Nat) :=
  let k := deriveKey passphrase e.salt
  if e.tag = macTag k e.nonce e.ct then .ok (xorPad k e.nonce 0 e.ct)
  else .error .authenticationFailure

theorem xorPad_xorPad (k : VaultKey) (nonce : Nat) (i : Nat) (P : List Nat) :
    xorPad k nonce i (xorPad k nonce i P) = P := by
  induction P generalizing i with
  | nil => rfl
  | cons b rest ih =>
    simp only [xorPad, ih, Nat.xor_assoc, Nat.xor_self, Nat.xor_zero]

/-- C4. Credential Vault round-trip: decrypting under the encrypting
passphrase recovers the plaintext; a wrong passphrase, or corruption of
any envelope field — ciphertext, salt, nonce or authentication tag —
fails with `AuthenticationFailure`. -/
theorem credential_vault_roundtrip (P : List Nat) (pass : String) (salt nonce : Nat) :
    decrypt (encrypt P pass salt nonce) pass = .ok P ∧
    (∀ pass2, pass2 ≠ pass →
      decrypt (encrypt P pass salt nonce) pass2 = .error .authenticationFailure) ∧
    (∀ ct2, ct2 ≠ (encrypt P pass salt nonce).ct →
      decrypt { encrypt P pass salt nonce with ct := ct2 } pass =
        .error .authenticationFailure) ∧
    (∀ salt2, salt2 ≠ salt →
      decrypt { encrypt P pass salt nonce with salt := salt2 } pass =
        .error .authenticationFailure) ∧
    (∀ nonce2, nonce2 ≠ nonce →
      decrypt { encrypt P pass salt nonce with nonce := nonce2 } pass =
        .error .authenticationFailure) ∧
    (∀ tag2, tag2 ≠ (encrypt P pass salt nonce).tag →
      decrypt { encrypt P pass salt nonce with tag := tag2 } pass =
        .error .authenticationFailure) := by
  refine ⟨?_, ?_, ?_, ?_, ?_, ?_⟩
  · simp [decrypt, encrypt, macTag, deriveKey, xorPad_xorPad]
  · intro pass2 hne
    have htag : macTag (deriveKey pass salt) nonce (xorPad (deriveKey pass salt) nonce 0 P) ≠
        macTag (deriveKey pass2 salt) nonce (xorPad (deriveKey pass salt) nonce 0 P) := by
      intro h
      exact hne (congrArg (fun t => t.1.1) h).symm
    simp only [decrypt, encrypt, deriveKey] at htag ⊢
    rw [if_neg fun h => htag h]
  · intro ct2 hne
    have htag : macTag (deriveKey pass salt) nonce (xorPad (deriveKey pass salt) nonce 0 P) ≠
        macTag (deriveKey pass salt) nonce ct2 := by
      intro h
      exact hne ((congrArg (fun t => t.2.2) h).symm)
    simp only [decrypt, encrypt, deriveKey] at htag ⊢
    rw [if_neg fun h => htag h]
  · intro salt2 hne
    have htag : macTag (deriveKey pass salt) nonce (xorPad (deriveKey pass salt) nonce 0 P) ≠
        macTag (deriveKey pass salt2) nonce (xorPad (deriveKey pass salt) nonce 0 P) := by
      intro h
      exact hne (congrArg (fun t => t.1.2) h).symm
    simp only [decrypt, encrypt, deriveKey] at htag ⊢
    rw [if_neg fun h => htag h]
  · intro nonce2 hne
    have htag : macTag (deriveKey pass salt) nonce (xorPad (deriveKey pass salt) nonce 0 P) ≠
        macTag (deriveKey pass salt) nonce2 (xorPad (deriveKey pass salt) nonce 0 P) := by
      intro h
      exact hne (congrArg (fun t => t.2.1) h).symm
    simp only [decrypt, encrypt, deriveKey] at htag ⊢
    rw [if_neg fun h => htag h]
  · intro tag2 hne
    have htag : tag2 ≠ macTag (deriveKey pass salt) nonce
        (xorPad (deriveKey pass salt) nonce 0 P) := hne
    simp only [decrypt, encrypt, deriveKey] at htag ⊢
    rw [if_neg fun h => htag h]

/-- C4 witness at a concrete plaintext, passphrase, salt and nonce,
exercising the wrong passphrase and every tampered envelope field. -/
theorem credential_vault_roundtrip_witness :
    decrypt (encrypt [7, 200, 1] "hunter2" 3 4) "hunter2" = .ok [7, 200, 1] ∧
    decrypt (encrypt [7, 200, 1] "hunter2" 3 4) "wrong" =
      .error .authenticationFailure ∧
    decrypt { encrypt [7, 200, 1] "hunter2" 3 4 with ct := [] } "hunter2" =
      .error .authenticationFailure ∧
    decrypt { encrypt [7, 200, 1] "hunter2" 3 4 with salt := 9 } "hunter2" =
      .error .authenticationFailure ∧
    decrypt { encrypt [7, 200, 1] "hunter2" 3 4 with nonce := 5 } "hunter2" =
      .error .authenticationFailure ∧
    decrypt { encrypt [7, 200, 1] "hunter2" 3 4 with
        tag := (("x", 0), 0, []) } "hunter2" = .error .authenticationFailure :=
  ⟨(credential_vault_roundtrip [7, 200, 1] "hunter2" 3 4).1,
   (credential_vault_roundtrip [7, 200, 1] "hunter2" 3 4).2.1 "wrong" (by decide),
   (credential_vault_roundtrip [7, 200, 1] "hunter2" 3 4).2.2.1 [] (by decide),
   (credential_vault_roundtrip [7, 200, 1] "hunter2" 3 4).2.2.2.1 9 (by decide),
   (credential_vault_roundtrip [7, 200, 1] "hunter2" 3 4).2.2.2.2.1 5 (by decide),
   (credential_vault_roundtrip [7, 200, 1] "hunter2" 3 4).2.2.2.2.2
     (("x", 0), 0, []) (by decide)⟩

/-! ## Live job tracker and deployment orchestrator (src/server.js)

`activeJobs` is a `Map` from job id to `{ status, logs }`; it is modelled
as an association list in which `set` prepends and `get` takes the first
match.  The three collaborator calls inside `runDeployment` are modelled
by a `StageOutcome` each: the log lines the stage streams through its
callback, and `none` (the promise resolves) or `some msg` (the promise
rejects with an error whose message is `msg`). -/

/-- One entry of the in-memory tracker: `{ status: ..., logs: [...] }`. -/
structure MemJob where
  status : String
  logs : List String
deriving DecidableEq

/-- `activeJobs.get(jobId)`. -/
def lookupJob : List (Nat × MemJob) → Nat → Option MemJob
  | [], _ => none
  | (k, v) :: rest, id => if k = id then some v else lookupJob rest id

/-- `activeJobs.delete(jobId)`. -/
def removeJob : List (Nat × MemJob) → Nat → List (Nat × MemJob)
  | [], _ => []
  | (k, v) :: rest, id =>
    if k = id then removeJob rest id else (k, v) :: removeJob rest id

/-- Behaviour of one collaborator stage: the log lines it streams before
settling, and `some msg` when its promise rejects. -/
structure StageOutcome where
  logs : List String
  err : Option String

/-- Behaviour of the external calls of one deployment run: the three
stage collaborators, and the outcome of the `db.addImageTag` call made
after a fully successful run — `none` when it returns (including the
swallowed duplicate case), `some msg` when it throws a non-duplicate
database error, which the same catch block of `runDeployment` receives. -/
structure Collabs where
  build : StageOutcome
  push : StageOutcome
  deploy : StageOutcome
  tagWrite : Option String

/-- Observable outcome of `runDeployment`: the tracker after the run, the
`updateJobInDB` flushes (status and logs array) in call order, whether
`addImageTag` ran, which collaborators were invoked, and the sequence of
status values assigned to the tracker entry. -/
structure RunResult where
  activeJobs : List (Nat × MemJob)
  flushes : List (String × List String)
  tagRecorded : Bool
  buildInvoked : Bool
  pushInvoked : Bool
  deployInvoked : Bool
  memTrace : List String

/-- `runDeployment` (server.js lines 246-288): no-op when no live entry
exists; otherwise status goes to `running` with a first durable flush,
then the Build, Push and Deploy stages run in order, each streaming its
log lines; the first stage whose promise rejects is caught, an
`ERROR: <message>` line is appended, status flips to `failed`, the final
state is flushed and the tracker entry removed; when all three resolve,
status becomes `completed`, the final state is flushed and the tag record
is written.  The `await db.addImageTag` of line 278 sits inside the same
try block, so when it throws a non-duplicate error after the `completed`
flush, the catch appends the `ERROR:` line, flips the already-completed
job to `failed` and flushes once more; either way the tracker entry is
then removed. -/
def runDeployment (sshHost fullImageName : String) (collabs : Collabs)
    (active : List (Nat × MemJob)) (jobId : Nat) : RunResult :=
  match lookupJob active jobId with
  | none =>
      { activeJobs := active, flushes := [], tagRecorded := false,
        buildInvoked := false, pushInvoked := false, deployInvoked := false,
        memTrace := [] }
  | some job0 =>
      let flush1 : String × List String := ("running", job0.logs)
      let logsB := job0.logs ++ "Building Docker image..." :: collabs.build.logs
      match collabs.build.err with
      | some msg =>
          { activeJobs := removeJob active jobId,
            flushes := [flush1, ("failed", logsB ++ ["ERROR: " ++ msg])],
            tagRecorded := false,
            buildInvoked := true, pushInvoked := false, deployInvoked := false,
            memTrace := ["running", "failed"] }
      | none =>
          let logsP := logsB ++ ["Successfully built image: " ++ fullImageName,
              "Pushing image to Docker Hub..."] ++ collabs.push.logs
          match collabs.push.err with
          | some msg =>
              { activeJobs := removeJob active jobId,
                flushes := [flush1, ("failed", logsP ++ ["ERROR: " ++ msg])],
                tagRecorded := false,
                buildInvoked := true, pushInvoked := true, deployInvoked := false,
                memTrace := ["running", "failed"] }
          | none =>
              let logsD := logsP ++ ["Successfully pushed image to Docker Hub",
                  "Connecting to server " ++ sshHost ++ "..."] ++ collabs.deploy.logs
              match collabs.deploy.err with
              | some msg =>
                  { activeJobs := removeJob active jobId,
                    flushes := [flush1, ("failed", logsD ++ ["ERROR: " ++ msg])],
                    tagRecorded := false,
                    buildInvoked := true, pushInvoked := true, deployInvoked := true,
                    memTrace := ["running", "failed"] }
              | none =>
                  let logsC := logsD ++ ["Deployment completed successfully!"]
                  match collabs.tagWrite with
                  | none =>
                      { activeJobs := removeJob active jobId,
                        flushes := [flush1, ("completed", logsC)],
                        tagRecorded := true,
                        buildInvoked := true, pushInvoked := true,
                        deployInvoked := true,
                        memTrace := ["running", "completed"] }
                  | some msg =>
                      { activeJobs := removeJob active jobId,
                        flushes := [flush1, ("completed", logsC),
                          ("failed", logsC ++ ["ERROR: " ++ msg])],
                        tagRecorded := false,
                        buildInvoked := true, pushInvoked := true,
                        deployInvoked := true,
                        memTrace := ["running", "completed", "failed"] }

theorem lookupJob_removeJob (active : List (Nat × MemJob)) (id : Nat) :
    lookupJob (removeJob active id) id = none := by
  induction active with
  | nil => rfl
  | cons p rest ih =>
    obtain ⟨k, v⟩ := p
    by_cases h : k = id <;> simp [removeJob, lookupJob, h, ih]

/-- C1. Fail-fast orchestration: when the push stage rejects, the deploy
collaborator is never invoked, the final durable flush carries status
`failed` with the `ERROR:` log line as its last entry, and the tracker
entry is removed. -/
theorem push_failure_fail_fast (sshHost fullImageName : String) (collabs : Collabs)
    (active : List (Nat × MemJob)) (jobId : Nat) (job0 : MemJob) (msg : String)
    (hlive : lookupJob active jobId = some job0)
    (hbuild : collabs.build.err = none)
    (hpush : collabs.push.err = some msg) :
    (runDeployment sshHost fullImageName collabs active jobId).deployInvoked = false ∧
    (∃ L, (runDeployment sshHost fullImageName collabs active jobId).flushes.getLast? =
        some ("failed", L) ∧ L.getLast? = some ("ERROR: " ++ msg)) ∧
    lookupJob (runDeployment sshHost fullImageName collabs active jobId).activeJobs jobId =
      none := by
  unfold runDeployment
  rw [hlive, hbuild, hpush]
  refine ⟨rfl, ⟨_, rfl, ?_⟩, lookupJob_removeJob active jobId⟩
  simp [List.getLast?_append, List.getLast?_cons]

/-- Build and push collaborator behaviour where the push stage rejects,
used to witness the fail-fast theorem. -/
def collabsPushFail : Collabs :=
  { build := ⟨["step 1"], none⟩, push := ⟨["preparing"], some "denied"⟩,
    deploy := ⟨[], none⟩, tagWrite := none }

/-- C1 witness at a concrete live job and failing push. -/
theorem push_failure_fail_fast_witness :
    (runDeployment "h" "u/app:v1" collabsPushFail [(1, ⟨"pending", []⟩)] 1).deployInvoked =
      false ∧
    (∃ L, (runDeployment "h" "u/app:v1" collabsPushFail
        [(1, ⟨"pending", []⟩)] 1).flushes.getLast? = some ("failed", L) ∧
      L.getLast? = some ("ERROR: " ++ "denied")) ∧
    lookupJob (runDeployment "h" "u/app:v1" collabsPushFail
        [(1, ⟨"pending", []⟩)] 1).activeJobs 1 = none :=
  push_failure_fail_fast "h" "u/app:v1" collabsPushFail [(1, ⟨"pending", []⟩)] 1
    ⟨"pending", []⟩ "denied" rfl rfl rfl

/-! ## Deploy request handler (src/server.js, POST /api/deploy) -/

/-- The request body fields; an absent field and an empty string are both
falsy in the JS validation and are modelled uniformly as `""`. -/
structure DeployRequest where
  projectPath : String
  dockerfileName : String
  contextPath : String
  imageName : String
  imageTag : String
  dockerHubUsername : String
  dockerHubPassword : String
  sshHost : String
  sshUser : String
  sshPassword : String
  sshPrivateKey : String
  sshPassphrase : String
  containerName : String
  hostPort : String
  containerPort : String
  buildPlatform : String
  envVars : String
deriving DecidableEq

/-- JS truthiness of a string field. -/
def truthy (s : String) : Bool := s != ""

/-- The required-field check of server.js line 26 (negated condition). -/
def missingRequired (r : DeployRequest) : Bool :=
  !(truthy r.projectPath && truthy r.imageName && truthy r.imageTag &&
    truthy r.dockerHubUsername && truthy r.dockerHubPassword &&
    truthy r.sshHost && truthy r.sshUser && truthy r.containerName)

/-- The authentication check of server.js line 31: neither an SSH password
nor an SSH private key is supplied. -/
def missingAuth (r : DeployRequest) : Bool :=
  !truthy r.sshPassword && !truthy r.sshPrivateKey

inductive DeployResponse where
  | validationFailed (msg : String)
  | started (jobId : Nat)
deriving DecidableEq

/-- Observable outcome of the POST /api/deploy handler. -/
structure HandlerResult where
  response : DeployResponse
  jobCreated : Bool
  runStarted : Bool
  dbStatusTrace : List String
  memStatusTrace : List String

/-- POST /api/deploy (server.js lines 22-49): validate, then create the
durable job with status `pending`, register the tracker entry with status
`pending` and empty logs, respond, and start `runDeployment`
asynchronously.  `jobId` stands for the id the store assigns; the durable
status trace starts with the `pending` written by `createJob` followed by
the statuses of the run's flushes, and the tracker status trace starts
with the `pending` entry followed by the statuses the run assigns. -/
def deployHandler (r : DeployRequest) (collabs : Collabs)
    (active0 : List (Nat × MemJob)) (jobId : Nat) : HandlerResult :=
  if missingRequired r then
    { response := .validationFailed "Missing required fields",
      jobCreated := false, runStarted := false,
      dbStatusTrace := [], memStatusTrace := [] }
  else if missingAuth r then
    { response := .validationFailed
        "Either SSH password or SSH private key must be provided",
      jobCreated := false, runStarted := false,
      dbStatusTrace := [], memStatusTrace := [] }
  else
    let active := (jobId, { status := "pending", logs := [] }) :: active0
    let fullImageName := r.dockerHubUsername ++ "/" ++ r.imageName ++ ":" ++ r.imageTag
    let run := runDeployment r.sshHost fullImageName collabs active jobId
    { response := .started jobId, jobCreated := true, runStarted := true,
      dbStatusTrace := "pending" :: run.flushes.map Prod.fst,
      memStatusTrace := "pending" :: run.memTrace }

/-- C2 (amended). State-machine monotonicity: the tracker and the durable
store observe the same status sequence; whenever the tag-history write
returns, that sequence is exactly `pending`, `running`, then one terminal
status; and in general it is one of the two legal complete chains or —
only when the tag-history write throws after full success — the chain
extended by a final `completed` to `failed` flip. -/
theorem job_status_monotone (r : DeployRequest) (collabs : Collabs)
    (active0 : List (Nat × MemJob)) (jobId : Nat)
    (hreq : missingRequired r = false) (hauth : missingAuth r = false) :
    (deployHandler r collabs active0 jobId).dbStatusTrace =
      (deployHandler r collabs active0 jobId).memStatusTrace ∧
    (collabs.tagWrite = none →
      ∃ t, (t = "completed" ∨ t = "failed") ∧
        (deployHandler r collabs active0 jobId).memStatusTrace =
          ["pending", "running", t]) ∧
    ((deployHandler r collabs active0 jobId).memStatusTrace =
        ["pending", "running", "completed"] ∨
      (deployHandler r collabs active0 jobId).memStatusTrace =
        ["pending", "running", "failed"] ∨
      ((deployHandler r collabs active0 jobId).memStatusTrace =
          ["pending", "running", "completed", "failed"] ∧
        collabs.tagWrite ≠ none)) := by
  unfold deployHandler
  rw [hreq, hauth]
  simp only [Bool.false_eq_true, if_false]
  unfold runDeployment
  simp only [lookupJob, if_pos rfl]
  cases collabs.build.err with
  | some m => exact ⟨rfl, fun _ => ⟨"failed", Or.inr rfl, rfl⟩, Or.inr (Or.inl rfl)⟩
  | none =>
    cases collabs.push.err with
    | some m => exact ⟨rfl, fun _ => ⟨"failed", Or.inr rfl, rfl⟩, Or.inr (Or.inl rfl)⟩
    | none =>
      cases collabs.deploy.err with
      | some m => exact ⟨rfl, fun _ => ⟨"failed", Or.inr rfl, rfl⟩, Or.inr (Or.inl rfl)⟩
      | none =>
        cases htag : collabs.tagWrite with
        | none => exact ⟨rfl, fun _ => ⟨"completed", Or.inl rfl, rfl⟩, Or.inl rfl⟩
        | some code =>
          exact ⟨rfl, fun h => Option.noConfusion h,
            Or.inr (Or.inr ⟨rfl, by simp⟩)⟩

/-- A request carrying every required field together with both an SSH
password and an SSH private key. -/
def bothAuthRequest : DeployRequest :=
  { projectPath := "/p", dockerfileName := "", contextPath := "",
    imageName := "app", imageTag := "v1", dockerHubUsername := "u",
    dockerHubPassword := "pw", sshHost := "h", sshUser := "root",
    sshPassword := "secret", sshPrivateKey := "KEY", sshPassphrase := "",
    containerName := "c", hostPort := "", containerPort := "",
    buildPlatform := "", envVars := "" }

/-- Collaborator behaviour in which every stage resolves with no output
and the tag-history write returns. -/
def collabsAllOk : Collabs :=
  { build := ⟨[], none⟩, push := ⟨[], none⟩, deploy := ⟨[], none⟩,
    tagWrite := none }

/-- C2 witness at a concrete valid request. -/
theorem job_status_monotone_witness :
    (deployHandler bothAuthRequest collabsAllOk [] 1).dbStatusTrace =
      (deployHandler bothAuthRequest collabsAllOk [] 1).memStatusTrace ∧
    (collabsAllOk.tagWrite = none →
      ∃ t, (t = "completed" ∨ t = "failed") ∧
        (deployHandler bothAuthRequest collabsAllOk [] 1).memStatusTrace =
          ["pending", "running", t]) ∧
    ((deployHandler bothAuthRequest collabsAllOk [] 1).memStatusTrace =
        ["pending", "running", "completed"] ∨
      (deployHandler bothAuthRequest collabsAllOk [] 1).memStatusTrace =
        ["pending", "running", "failed"] ∨
      ((deployHandler bothAuthRequest collabsAllOk [] 1).memStatusTrace =
          ["pending", "running", "completed", "failed"] ∧
        collabsAllOk.tagWrite ≠ none)) :=
  job_status_monotone bothAuthRequest collabsAllOk [] 1 rfl rfl

/-- Collaborator behaviour where all three stages resolve and the
tag-history insert raises a connection error. -/
def collabsTagFault : Collabs :=
  { build := ⟨[], none⟩, push := ⟨[], none⟩, deploy := ⟨[], none⟩,
    tagWrite := some "connect ECONNREFUSED" }

/-- C2 counterexample to the claim as stated: when the `db.addImageTag`
call after the final `completed` flush throws, the catch block flips the
already-completed job to `failed`, so the tracker and the durable store
both observe `pending`, `running`, `completed`, `failed` — a transition
after a terminal status, not a prefix of the legal chain. -/
theorem completed_then_failed :
    (deployHandler bothAuthRequest collabsTagFault [] 1).memStatusTrace =
      ["pending", "running", "completed", "failed"] ∧
    (deployHandler bothAuthRequest collabsTagFault [] 1).dbStatusTrace =
      ["pending", "running", "completed", "failed"] ∧
    ¬ ∃ t, (t = "completed" ∨ t = "failed") ∧
      (deployHandler bothAuthRequest collabsTagFault [] 1).memStatusTrace =
        ["pending", "running", t] := by
  refine ⟨rfl, rfl, ?_⟩
  rintro ⟨t, _, heq⟩
  have h4 : (["pending", "running", "completed", "failed"] : List String) =
      ["pending", "running", t] := heq
  simp at h4

/-- C8 (amended). Validation before any job exists: a request missing a
required field, or supplying neither an SSH password nor an SSH private
key, is rejected synchronously with a validation error, and neither a
durable job nor an asynchronous run is created. -/
theorem validation_before_job (r : DeployRequest) (collabs : Collabs)
    (active0 : List (Nat × MemJob)) (jobId : Nat)
    (h : missingRequired r = true ∨ missingAuth r = true) :
    (∃ msg, (deployHandler r collabs active0 jobId).response =
        .validationFailed msg) ∧
    (deployHandler r collabs active0 jobId).jobCreated = false ∧
    (deployHandler r collabs active0 jobId).runStarted = false := by
  unfold deployHandler
  cases hm : missingRequired r with
  | true => exact ⟨⟨"Missing required fields", rfl⟩, rfl, rfl⟩
  | false =>
    rcases h with h | h
    · rw [hm] at h
      exact Bool.noConfusion h
    · rw [h]
      exact ⟨⟨"Either SSH password or SSH private key must be provided", rfl⟩,
        rfl, rfl⟩

/-- A request supplying a password but no key and missing `imageName`,
used to witness the validation theorem. -/
def missingFieldRequest : DeployRequest :=
  { bothAuthRequest with imageName := "", sshPrivateKey := "" }

/-- C8 witness at a concrete invalid request. -/
theorem validation_before_job_witness :
    (∃ msg, (deployHandler missingFieldRequest collabsAllOk [] 1).response =
        DeployResponse.validationFailed msg) ∧
    (deployHandler missingFieldRequest collabsAllOk [] 1).jobCreated = false ∧
    (deployHandler missingFieldRequest collabsAllOk [] 1).runStarted = false :=
  validation_before_job missingFieldRequest collabsAllOk [] 1 (Or.inl rfl)

/-- C8 counterexample to the claim as stated: a submission carrying BOTH
an SSH password and an SSH private key is accepted and starts a job, so
the validation requires at least one of the two, not exactly one. -/
theorem both_auth_accepted :
    truthy bothAuthRequest.sshPassword = true ∧
    truthy bothAuthRequest.sshPrivateKey = true ∧
    (deployHandler bothAuthRequest collabsAllOk [] 1).jobCreated = true ∧
    (deployHandler bothAuthRequest collabsAllOk [] 1).response =
      DeployResponse.started 1 :=
  ⟨rfl, rfl, rfl, rfl⟩

/-! ## Job reads: in-memory / durable merge (src/server.js, GET /api/jobs
and GET /api/jobs/:id) -/

/-- A durable job row as returned by database.js `getJob` / `getAllJobs`. -/
structure DbJobRec where
  id : Nat
  status : String
  logs : List String
  config : String
  createdAt : Nat
deriving DecidableEq

/-- The merge applied to one durable record (server.js lines 56-67 and
84-91): when a live tracker entry exists for the record's id, its status
and logs override the durable ones; otherwise the record passes through. -/
def mergeJob (active : List (Nat × MemJob)) (job : DbJobRec) : DbJobRec :=
  match lookupJob active job.id with
  | some a => { job with status := a.status, logs := a.logs }
  | none => job

/-- GET /api/jobs (server.js lines 51-73): merge every durable record. -/
def getAllJobsHandler (active : List (Nat × MemJob)) (dbJobs : List DbJobRec) :
    List DbJobRec :=
  dbJobs.map (mergeJob active)

/-- Durable lookup by id backing GET /api/jobs/:id. -/
def dbGetJob (db : List DbJobRec) (id : Nat) : Option DbJobRec :=
  db.find? (fun j => j.id == id)

/-- GET /api/jobs/:id (server.js lines 75-97): 404 when the durable record
is absent, otherwise the merged record. -/
def getJobHandler (active : List (Nat × MemJob)) (db : List DbJobRec) (id : Nat) :
    Option DbJobRec :=
  match dbGetJob db id with
  | none => none
  | some j => some (mergeJob active j)

/-- C3. Merge precedence: both job reads return the live entry's status
and logs combined with the durable record's config and creation time
whenever a live entry exists, and the durable record unchanged otherwise. -/
theorem merge_precedence (active : List (Nat × MemJob)) (db : List DbJobRec)
    (id : Nat) :
    (∀ j a, dbGetJob db id = some j → lookupJob active j.id = some a →
        getJobHandler active db id = some
          { id := j.id, status := a.status, logs := a.logs,
            config := j.config, createdAt := j.createdAt }) ∧
    (∀ j, dbGetJob db id = some j → lookupJob active j.id = none →
        getJobHandler active db id = some j) ∧
    (dbGetJob db id = none → getJobHandler active db id = none) ∧
    (∀ j ∈ db, mergeJob active j ∈ getAllJobsHandler active db ∧
      (∀ a, lookupJob active j.id = some a → mergeJob active j =
          { id := j.id, status := a.status, logs := a.logs,
            config := j.config, createdAt := j.createdAt }) ∧
      (lookupJob active j.id = none → mergeJob active j = j)) := by
  refine ⟨?_, ?_, ?_, ?_⟩
  · intro j a hdb hlive
    simp only [getJobHandler, hdb, mergeJob, hlive]
  · intro j hdb hlive
    simp only [getJobHandler, hdb, mergeJob, hlive]
  · intro hdb
    simp only [getJobHandler, hdb]
  · intro j hj
    refine ⟨List.mem_map_of_mem (mergeJob active) hj, ?_, ?_⟩
    · intro a hlive
      simp only [mergeJob, hlive]
    · intro hlive
      simp only [mergeJob, hlive]

/-- C3 witness: a live entry overrides one record and a second record
without a live entry passes through. -/
theorem merge_precedence_witness :
    getJobHandler [(1, ⟨"running", ["l1"]⟩)]
        [{ id := 1, status := "pending", logs := [], config := "c", createdAt := 5 }] 1 =
      some { id := 1, status := "running", logs := ["l1"],
             config := "c", createdAt := 5 } ∧
    getJobHandler [(1, ⟨"running", ["l1"]⟩)]
        [{ id := 2, status := "failed", logs := ["x"], config := "d", createdAt := 9 }] 2 =
      some { id := 2, status := "failed", logs := ["x"], config := "d", createdAt := 9 } :=
  ⟨(merge_precedence [(1, ⟨"running", ["l1"]⟩)]
        [{ id := 1, status := "pending", logs := [], config := "c", createdAt := 5 }] 1).1
      { id := 1, status := "pending", logs := [], config := "c", createdAt := 5 }
      ⟨"running", ["l1"]⟩ rfl rfl,
   (merge_precedence [(1, ⟨"running", ["l1"]⟩)]
        [{ id := 2, status := "failed", logs := ["x"], config := "d", createdAt := 9 }] 2).2.1
      { id := 2, status := "failed", logs := ["x"], config := "d", createdAt := 9 }
      rfl rfl⟩

/-! ## Push stage progress feed (src/unnamed/part_001, pushImage)

The progress feed of the publish collaborator is a list of JSON events.
An event field that is absent is `none`; string fields model JS falsiness
of the empty string explicitly in the guards. -/

/-- One progress event: `error` is the optional `error` string field,
`errorDetail` the optional `errorDetail` object carrying an optional
`message`, and `status` / `progress` the log fields. -/
structure ProgEvent where
  error : Option String
  errorDetail : Option (Option String)
  status : Option String
  progress : Option String

/-- JS truthiness of an optional string field. -/
def truthyOpt : Option String → Bool
  | none => false
  | some s => s != ""

/-- The guard `event.error || event.errorDetail`: a truthy `error` string
or the presence of an `errorDetail` object. -/
def eventIsErr (e : ProgEvent) : Bool := truthyOpt e.error || e.errorDetail.isSome

/-- JS `a || b` on an optional string against a string default. -/
def jsOrStr (a : Option String) (b : String) : String :=
  match a with
  | some s => if s = "" then b else s
  | none => b

/-- `event.error || event.errorDetail.message || 'Unknown push error'`. -/
def pushErrMsg (e : ProgEvent) : String :=
  jsOrStr e.error (jsOrStr (e.errorDetail.getD none) "Unknown push error")

/-- The log lines one non-error event contributes:
`if (event.status) logCallback(event.progress ? status + ' ' + progress : status)`. -/
def pushLogLines (e : ProgEvent) : List String :=
  match e.status with
  | none => []
  | some s =>
    if s = "" then []
    else
      match e.progress with
      | some p => if p = "" then [s] else [s ++ " " ++ p]
      | none => [s]

def pushLogsOf : List ProgEvent → List String
  | [] => []
  | e :: rest => pushLogLines e ++ pushLogsOf rest

/-- Outcome of the push stage: the lines handed to the log callback and
the settled promise. -/
structure PushOutcome where
  logs : List String
  result : Except String Unit

/-- The `onProgress` / `onFinished` loop of `followProgress`: the first
event whose `error`/`errorDetail` guard fires rejects the promise with
that event's message; otherwise events log their status lines and
`onFinished` settles the promise (rejecting when the stream itself
errored). -/
def pushEvents : List ProgEvent → List String → Option String → PushOutcome
  | [], acc, finishErr =>
    match finishErr with
    | some m => ⟨acc, .error m⟩
    | none => ⟨acc, .ok ()⟩
  | e :: rest, acc, finishErr =>
    if eventIsErr e then ⟨acc, .error (pushErrMsg e)⟩
    else pushEvents rest (acc ++ pushLogLines e) finishErr

/-- `pushImage` (src/unnamed/part_001 lines 104-141): `startErr` models
the outer try/catch around `image.push`; then the progress feed drives
the promise as in `pushEvents`. -/
def pushImage (startErr : Option String) (events : List ProgEvent)
    (finishErr : Option String) : PushOutcome :=
  match startErr with
  | some m => ⟨[], .error m⟩
  | none => pushEvents events [] finishErr

theorem pushEvents_first_err (post : List ProgEvent) (e : ProgEvent)
    (finishErr : Option String) (pre : List ProgEvent) (acc : List String)
    (hpre : ∀ x ∈ pre, eventIsErr x = false) (herr : eventIsErr e = true) :
    pushEvents (pre ++ e :: post) acc finishErr =
      ⟨acc ++ pushLogsOf pre, .error (pushErrMsg e)⟩ := by
  induction pre generalizing acc with
  | nil => simp [pushEvents, herr, pushLogsOf]
  | cons x rest ih =>
    have hx : eventIsErr x = false := hpre x (List.mem_cons_self x rest)
    have hrest : ∀ y ∈ rest, eventIsErr y = false :=
      fun y hy => hpre y (List.mem_cons_of_mem x hy)
    simp only [List.cons_append, pushEvents, hx, Bool.false_eq_true, if_false,
      List.append_eq, ih (acc ++ pushLogLines x) hrest, pushLogsOf,
      List.append_assoc]

/-- C6. Push-stage stream errors abort: an `error`/`errorDetail` event in
the progress feed makes the push stage reject with that event's message;
the events from the error on are not logged and the stage does not
complete. -/
theorem push_stream_error_aborts (events pre post : List ProgEvent)
    (e : ProgEvent) (finishErr : Option String)
    (hsplit : events = pre ++ e :: post)
    (hpre : ∀ x ∈ pre, eventIsErr x = false)
    (herr : eventIsErr e = true) :
    (pushImage none events finishErr).result = .error (pushErrMsg e) ∧
    (pushImage none events finishErr).logs = pushLogsOf pre := by
  subst hsplit
  unfold pushImage
  rw [pushEvents_first_err post e finishErr pre [] hpre herr]
  exact ⟨rfl, by simp⟩

/-- A progress feed whose second event carries an `errorDetail`. -/
def errFeed : List ProgEvent :=
  [⟨none, none, some "Pushing", none⟩,
   ⟨none, some (some "denied: requested access to the resource is denied"),
    some "x", none⟩]

/-- C6 witness at a concrete progress feed. -/
theorem push_stream_error_aborts_witness :
    (pushImage none errFeed none).result =
      .error (pushErrMsg ⟨none,
        some (some "denied: requested access to the resource is denied"),
        some "x", none⟩) ∧
    (pushImage none errFeed none).logs =
      pushLogsOf [⟨none, none, some "Pushing", none⟩] :=
  push_stream_error_aborts errFeed
    [⟨none, none, some "Pushing", none⟩]
    []
    ⟨none, some (some "denied: requested access to the resource is denied"),
      some "x", none⟩
    none rfl (by decide) (by decide)

/-! ## Build stage verification and tag fallback (src/unnamed/part_001,
buildImage onFinished) -/

/-- One entry of the build output array as read by `onFinished`: only a
truthy `aux.ID` field matters, modelled as `some id`. -/
structure BuildEvent where
  auxID : Option String

/-- The `for ... break` loop over the build output searching `aux.ID`. -/
def findAuxId : List BuildEvent → Option String
  | [] => none
  | e :: rest =>
    match e.auxID with
    | some id => some id
    | none => findAuxId rest

/-- `onFinished` of `buildImage` (src/unnamed/part_001 lines 45-85):
reject on a stream error; otherwise verify the image reference with
`image.inspect()` (`inspectRes`); on verification failure search the
output for a raw image id and tag it (`tagRes`); reject when neither
verification nor fallback tagging succeeds. -/
def buildFinish (finishErr : Option String) (inspectRes : Except String Unit)
    (tagRes : String → Except String Unit) (output : List BuildEvent) :
    Except String Unit :=
  match finishErr with
  | some m => .error m
  | none =>
    match inspectRes with
    | .ok _ => .ok ()
    | .error im =>
      match findAuxId output with
      | some id =>
        match tagRes id with
        | .ok _ => .ok ()
        | .error tm => .error ("Failed to tag image: " ++ tm)
      | none => .error ("Image was built but could not be found or tagged: " ++ im)

/-- C7. Build verification with tag fallback: after the collaborator
reports completion the stage resolves exactly when the image reference
verifies, or verification fails but a raw image id found in the build
output tags successfully; in every other case it rejects. -/
theorem build_verification_fallback (finishErr : Option String)
    (inspectRes : Except String Unit) (tagRes : String → Except String Unit)
    (output : List BuildEvent) :
    buildFinish finishErr inspectRes tagRes output = .ok () ↔
      finishErr = none ∧
        (inspectRes = .ok () ∨
          ∃ id, findAuxId output = some id ∧ tagRes id = .ok ()) := by
  cases finishErr with
  | some m => simp [buildFinish]
  | none =>
    cases inspectRes with
    | ok u =>
      cases u
      simp [buildFinish]
    | error im =>
      cases hfind : findAuxId output with
      | none => simp [buildFinish, hfind]
      | some id =>
        cases htag : tagRes id with
        | ok u =>
          cases u
          simp [buildFinish, hfind, htag]
        | error tm => simp [buildFinish, hfind, htag]

/-! ## Image tag ledger (src/services/database.js, addImageTag /
getImageTags / tagExists, and the image_tags schema) -/

/-- One row of the `image_tags` table. -/
structure TagRow where
  imageKey : String
  tag : String
  jobId : Nat
  createdAt : Nat
deriving DecidableEq

/-- Collision with the schema's UNIQUE KEY
`unique_image_tag (image_key, tag, created_at)`. -/
def hasDupKey (db : List TagRow) (key tg : String) (now : Nat) : Bool :=
  db.any fun r => r.imageKey == key && r.tag == tg && r.createdAt == now

inductive DbErr where
  | dupEntry
  | otherErr (code : String)
deriving DecidableEq

/-- The raw INSERT behind `addImageTag`: `fault` injects a non-duplicate
database error; without a fault, a unique-key collision raises
ER_DUP_ENTRY and otherwise the row is appended with `now` as its
`created_at` timestamp. -/
def insertImageTag (fault : Option String) (db : List TagRow)
    (key tg : String) (jobId now : Nat) : Except DbErr (List TagRow) :=
  match fault with
  | some code => .error (.otherErr code)
  | none =>
    if hasDupKey db key tg now then .error .dupEntry
    else .ok (db ++ [⟨key, tg, jobId, now⟩])

/-- `addImageTag` (database.js lines 236-248): ER_DUP_ENTRY is swallowed
(`error.code !== 'ER_DUP_ENTRY'` rethrows), every other error propagates. -/
def addImageTag (fault : Option String) (db : List TagRow)
    (key tg : String) (jobId now : Nat) : Except DbErr (List TagRow) :=
  match insertImageTag fault db key tg jobId now with
  | .error .dupEntry => .ok db
  | r => r

/-- `getImageTags` (database.js lines 250-260): the rows for an image key,
ordered by `created_at` DESC. -/
def getImageTags (db : List TagRow) (key : String) : List TagRow :=
  (db.filter (fun r => r.imageKey == key)).mergeSort
    (fun a b => decide (b.createdAt ≤ a.createdAt))

/-- `tagExists` (database.js lines 262-268): COUNT(*) over every
historical row for the (image key, tag) pair. -/
def tagExists (db : List TagRow) (key tg : String) : Bool :=
  decide (0 < (db.filter (fun r => r.imageKey == key && r.tag == tg)).length)

theorem tagExists_iff (d : List TagRow) (key tg : String) :
    tagExists d key tg = true ↔ ∃ r ∈ d, r.imageKey = key ∧ r.tag = tg := by
  simp only [tagExists, decide_eq_true_iff, ← List.countP_eq_length_filter,
    List.countP_pos_iff, Bool.and_eq_true, beq_iff_eq]

/-- C9. Tag ledger non-uniqueness: recording the same (image key, tag)
pair at two different timestamps succeeds both times, both rows appear in
`getImageTags` ordered most recent first, and `tagExists` answers from
all historical rows of the pair. -/
theorem tag_ledger_non_unique (db : List TagRow) (key tg : String)
    (j1 j2 t1 t2 : Nat) (hne : t1 ≠ t2)
    (h1 : hasDupKey db key tg t1 = false)
    (h2 : hasDupKey db key tg t2 = false) :
    ∃ db1 db2,
      addImageTag none db key tg j1 t1 = .ok db1 ∧
      addImageTag none db1 key tg j2 t2 = .ok db2 ∧
      (⟨key, tg, j1, t1⟩ : TagRow) ∈ getImageTags db2 key ∧
      (⟨key, tg, j2, t2⟩ : TagRow) ∈ getImageTags db2 key ∧
      (getImageTags db2 key).Pairwise (fun a b => b.createdAt ≤ a.createdAt) ∧
      tagExists db2 key tg = true ∧
      (∀ d : List TagRow, tagExists d key tg = true ↔
        ∃ r ∈ d, r.imageKey = key ∧ r.tag = tg) := by
  refine ⟨db ++ [({ imageKey := key, tag := tg, jobId := j1, createdAt := t1 } : TagRow)],
    (db ++ [({ imageKey := key, tag := tg, jobId := j1, createdAt := t1 } : TagRow)]) ++
      [({ imageKey := key, tag := tg, jobId := j2, createdAt := t2 } : TagRow)],
    ?_, ?_, ?_, ?_, ?_, ?_, fun d => tagExists_iff d key tg⟩
  · simp [addImageTag, insertImageTag, h1]
  · have hd : hasDupKey (db ++ [⟨key, tg, j1, t1⟩]) key tg t2 = false := by
      simp only [hasDupKey, List.any_append, Bool.or_eq_false_iff]
      refine ⟨h1 ▸ h2, ?_⟩
      simp [hne]
    simp [addImageTag, insertImageTag, hd]
  · simp [getImageTags, List.mem_mergeSort, List.mem_filter]
  · simp [getImageTags, List.mem_mergeSort, List.mem_filter]
  · have hs := @List.sorted_mergeSort TagRow
      (fun a b => decide (b.createdAt ≤ a.createdAt))
      (fun a b c hab hbc => by
        simp only [decide_eq_true_iff] at hab hbc ⊢
        exact Nat.le_trans hbc hab)
      (fun a b => by
        rcases Nat.le_total b.createdAt a.createdAt with h | h <;> simp [h])
      ((db ++ [({ imageKey := key, tag := tg, jobId := j1, createdAt := t1 } : TagRow)] ++
        [({ imageKey := key, tag := tg, jobId := j2, createdAt := t2 } : TagRow)]).filter
        (fun r => r.imageKey == key))
    exact hs.imp (fun h => of_decide_eq_true h)
  · rw [tagExists_iff]
    exact ⟨⟨key, tg, j2, t2⟩, by simp, rfl, rfl⟩

/-- C9 witness: the same tag recorded at timestamps 10 and 20 into an
empty ledger. -/
theorem tag_ledger_non_unique_witness :
    ∃ db1 db2,
      addImageTag none [] "u/app" "v1" 1 10 = .ok db1 ∧
      addImageTag none db1 "u/app" "v1" 2 20 = .ok db2 ∧
      (⟨"u/app", "v1", 1, 10⟩ : TagRow) ∈ getImageTags db2 "u/app" ∧
      (⟨"u/app", "v1", 2, 20⟩ : TagRow) ∈ getImageTags db2 "u/app" ∧
      (getImageTags db2 "u/app").Pairwise (fun a b => b.createdAt ≤ a.createdAt) ∧
      tagExists db2 "u/app" "v1" = true ∧
      (∀ d : List TagRow, tagExists d "u/app" "v1" = true ↔
        ∃ r ∈ d, r.imageKey = "u/app" ∧ r.tag = "v1") :=
  tag_ledger_non_unique [] "u/app" "v1" 1 2 10 20 (by decide) rfl rfl

/-- C10. `addImageTag` swallows a duplicate-entry collision, completing
successfully without adding a row, while any other database error
propagates to the caller. -/
theorem addImageTag_swallow_dup (db : List TagRow) (key tg : String)
    (jobId now : Nat) (code : String)
    (hdup : hasDupKey db key tg now = true) :
    addImageTag none db key tg jobId now = .ok db ∧
    addImageTag (some code) db key tg jobId now = .error (.otherErr code) := by
  constructor
  · simp [addImageTag, insertImageTag, hdup]
  · rfl

/-- C10 witness: re-recording a row already present with the same
timestamp, and a connection fault. -/
theorem addImageTag_swallow_dup_witness :
    addImageTag none [⟨"u/app", "v1", 1, 10⟩] "u/app" "v1" 2 10 =
      .ok [⟨"u/app", "v1", 1, 10⟩] ∧
    addImageTag (some "ECONNREFUSED") [⟨"u/app", "v1", 1, 10⟩] "u/app" "v1" 2 10 =
      .error (.otherErr "ECONNREFUSED") :=
  addImageTag_swallow_dup [⟨"u/app", "v1", 1, 10⟩] "u/app" "v1" 2 10
    "ECONNREFUSED" (by decide)

end MyCicd
